import Mathlib

/-!
Verification of the banking-chatbot front end (src/main.py).

The file embeds the logic the specification talks about:

* `clean_response` — the citation scrubber `re.sub(r"【\d+:\d+†source】", "", text)`
  (src/main.py lines 19-29), modelled as a left-to-right leftmost,
  non-overlapping scan over the character list;
* the streaming accumulation loop over assistant stream events
  (src/main.py lines 163-174), modelled as a fold of `streamStep`;
* the per-user-query handler that appends one user turn and one assistant
  turn to the chat history (src/main.py lines 140-182);
* the lazy thread creation check (src/main.py lines 142-144), named
  `ensure_thread` after the spec;
* the sidebar voice selectbox options (src/main.py lines 123-132).
-/

namespace BankingChatbot

/-- Consume one expected character from the front of the input, as the regex
engine does for a literal character of the pattern. -/
def expectChar (c : Char) : List Char → Option (List Char)
  | [] => none
  | x :: xs => if x = c then some xs else none

/-- The code point ranges of Unicode general category Nd (decimal digit),
Unicode 14.0 as shipped with CPython 3.11: exactly the characters Python
`re` matches for `\d` on a `str` pattern. -/
def ndDigitRanges : List (Nat × Nat) :=
  [(0x0030, 0x0039), (0x0660, 0x0669), (0x06F0, 0x06F9),
   (0x07C0, 0x07C9), (0x0966, 0x096F), (0x09E6, 0x09EF),
   (0x0A66, 0x0A6F), (0x0AE6, 0x0AEF), (0x0B66, 0x0B6F),
   (0x0BE6, 0x0BEF), (0x0C66, 0x0C6F), (0x0CE6, 0x0CEF),
   (0x0D66, 0x0D6F), (0x0DE6, 0x0DEF), (0x0E50, 0x0E59),
   (0x0ED0, 0x0ED9), (0x0F20, 0x0F29), (0x1040, 0x1049),
   (0x1090, 0x1099), (0x17E0, 0x17E9), (0x1810, 0x1819),
   (0x1946, 0x194F), (0x19D0, 0x19D9), (0x1A80, 0x1A89),
   (0x1A90, 0x1A99), (0x1B50, 0x1B59), (0x1BB0, 0x1BB9),
   (0x1C40, 0x1C49), (0x1C50, 0x1C59), (0xA620, 0xA629),
   (0xA8D0, 0xA8D9), (0xA900, 0xA909), (0xA9D0, 0xA9D9),
   (0xA9F0, 0xA9F9), (0xAA50, 0xAA59), (0xABF0, 0xABF9),
   (0xFF10, 0xFF19), (0x104A0, 0x104A9), (0x10D30, 0x10D39),
   (0x11066, 0x1106F), (0x110F0, 0x110F9), (0x11136, 0x1113F),
   (0x111D0, 0x111D9), (0x112F0, 0x112F9), (0x11450, 0x11459),
   (0x114D0, 0x114D9), (0x11650, 0x11659), (0x116C0, 0x116C9),
   (0x11730, 0x11739), (0x118E0, 0x118E9), (0x11950, 0x11959),
   (0x11C50, 0x11C59), (0x11D50, 0x11D59), (0x11DA0, 0x11DA9),
   (0x16A60, 0x16A69), (0x16AC0, 0x16AC9), (0x16B50, 0x16B59),
   (0x1D7CE, 0x1D7FF), (0x1E140, 0x1E149), (0x1E2F0, 0x1E2F9),
   (0x1E950, 0x1E959), (0x1FBF0, 0x1FBF9)]

/-- Whether Python `\d` matches the character: any Unicode decimal digit
(category Nd), not only ASCII `0`-`9`. -/
def isPyDigit (c : Char) : Bool :=
  ndDigitRanges.any fun p => decide (p.1 ≤ c.toNat ∧ c.toNat ≤ p.2)

/-- Consume a maximal nonempty run of decimal digits, as `\d+` does when the
next pattern element is not a digit (here `:` U+003A and `†` U+2020, neither
of category Nd), so greedy matching with backtracking coincides with maximal
munch. -/
def expectDigits (l : List Char) : Option (List Char) :=
  if (l.takeWhile isPyDigit).isEmpty then none
  else some (l.dropWhile isPyDigit)

/-- Consume an expected literal sequence of characters. -/
def expectLit : List Char → List Char → Option (List Char)
  | [], l => some l
  | c :: cs, l => (expectChar c l).bind (expectLit cs)

/-- Try to match the citation pattern `【\d+:\d+†source】` at the head of the
input; on success return the input that remains after the match. -/
def matchMarker (l : List Char) : Option (List Char) :=
  (expectChar '【' l).bind fun r1 =>
  (expectDigits r1).bind fun r2 =>
  (expectChar ':' r2).bind fun r3 =>
  (expectDigits r3).bind fun r4 =>
  (expectChar '†' r4).bind fun r5 =>
  expectLit ['s', 'o', 'u', 'r', 'c', 'e', '】'] r5

/-- One scrubbing pass over the characters, removing leftmost, non-overlapping
matches of the citation pattern exactly as Python `re.sub` with an empty
replacement does: scanning resumes after the text of a removed match, so a
match is never sought inside text produced by an earlier removal of the same
pass.  `fuel` bounds the recursion; `scrub` below supplies `l.length`, which
is always enough because every removed match is nonempty. -/
def scrubAux : Nat → List Char → List Char
  | 0, l => l
  | _ + 1, [] => []
  | fuel + 1, c :: cs =>
    match matchMarker (c :: cs) with
    | some rest => scrubAux fuel rest
    | none => c :: scrubAux fuel cs

/-- Remove every leftmost, non-overlapping match of `【\d+:\d+†source】`. -/
def scrub (l : List Char) : List Char :=
  scrubAux l.length l

/-- src/main.py lines 19-29: `re.sub(r"【\d+:\d+†source】", "", text)`. -/
def clean_response (text : String) : String :=
  String.mk (scrub text.data)

/-- Whether some suffix of the input starts with a citation marker, i.e.
whether the Python regex would find at least one match. -/
def hasMarker : List Char → Bool
  | [] => false
  | c :: cs => (matchMarker (c :: cs)).isSome || hasMarker cs

/-- String form of `hasMarker`. -/
def hasMarkerStr (s : String) : Bool :=
  hasMarker s.data

/-- One block of a message delta: either a `TextDeltaBlock` carrying
`text.value`, or a block of any other type. -/
inductive ContentBlock where
  | textDelta (value : String)
  | otherBlock
  deriving DecidableEq

/-- One event of the run stream: a `ThreadMessageDelta` carrying its
`data.delta.content` block list (empty models both `None` and `[]`, the two
falsy cases of the Python truthiness test), or an event of any other type. -/
inductive StreamEvent where
  | messageDelta (content : List ContentBlock)
  | otherEvent
  deriving DecidableEq

/-- src/main.py lines 167-170: the filter of the streaming loop.  The event
contributes text exactly when it is a `ThreadMessageDelta` whose content list
is non-empty and whose first block is a `TextDeltaBlock`; the contributed text
is `content[0].text.value`, blocks after index 0 being ignored. -/
def eventText : StreamEvent → Option String
  | .messageDelta (.textDelta v :: _) => some v
  | _ => none

/-- src/main.py lines 166-174: one iteration of the streaming loop, acting on
the pair of the accumulator `assistant_reply` and the list of strings pushed
so far to `assistant_reply_box.markdown` (each push replaces the in-progress
message with the full accumulator). -/
def streamStep (st : String × List String) (e : StreamEvent) : String × List String :=
  match eventText e with
  | some v =>
    let acc := st.1 ++ clean_response v
    (acc, st.2 ++ [acc])
  | none => st

/-- src/main.py lines 163-174: the whole streaming loop, starting from the
empty accumulator and an empty display box, and draining all events. -/
def runStream (events : List StreamEvent) : String × List String :=
  events.foldl streamStep ("", [])

/-- Wrap a bare text fragment as the stream event that delivers it. -/
def mkTextEvent (fragment : String) : StreamEvent :=
  .messageDelta [.textDelta fragment]

/-- One transcript entry, `{"role": ..., "content": ...}`. -/
structure Turn where
  role : String
  content : String
  deriving DecidableEq

/-- src/main.py lines 180-182: the assistant turn appended at the end of the
streaming block, built from the final accumulator value. -/
def finalizeTurn (acc : String) : Turn :=
  { role := "assistant", content := acc }

/-- The per-session state the handler touches: `st.session_state["thread_id"]`
(absent until first use) and `st.session_state["chat_history"]`. -/
structure Session where
  thread_id : Option Nat
  chat_history : List Turn
  deriving DecidableEq

/-- src/main.py lines 142-144: if the session has no `thread_id`, create a
thread (modelled by consuming the fresh identifier `fresh`) and store it;
otherwise leave the session untouched.  Returns the updated session, the
thread identifier to use, and whether thread creation was invoked. -/
def ensure_thread (s : Session) (fresh : Nat) : Session × Nat × Bool :=
  match s.thread_id with
  | none => ({ s with thread_id := some fresh }, fresh, true)
  | some t => (s, t, false)

/-- Number of thread creations performed by a sequence of `ensure_thread`
calls on the same session, each call offered its own fresh identifier. -/
def creationCount (s : Session) : List Nat → Nat
  | [] => 0
  | fresh :: rest =>
    let r := ensure_thread s fresh
    (if r.2.2 then 1 else 0) + creationCount r.1 rest

/-- src/main.py lines 141-182: the body of the `if user_query:` block.  The
block runs only when `user_query` is truthy (a non-empty string): it ensures a
thread, appends the user turn, drains the event stream, and appends the
assistant turn built from the final accumulator. -/
def handleUserQuery (s : Session) (fresh : Nat) (user_query : String)
    (events : List StreamEvent) : Session :=
  if user_query = "" then s
  else
    let s1 := (ensure_thread s fresh).1
    let s2 : Session := { s1 with chat_history :=
      s1.chat_history ++ [{ role := "user", content := user_query }] }
    let reply := (runStream events).1
    { s2 with chat_history := s2.chat_history ++ [finalizeTurn reply] }

/-- src/main.py lines 124-131: the option list of the sidebar voice
selectbox; `voice_bot` is always one of these entries and is the `voice`
argument of the `text_to_speech` call at line 178. -/
def voice_options : List String :=
  ["alloy", "echo", "fable", "onyx", "nova", "shimmer"]

/-- The voice identifier handed to speech synthesis when the user has picked
option `i` of the selectbox. -/
def synthesisVoice (i : Fin voice_options.length) : String :=
  voice_options.get i

/-- Concatenation of a list of strings in order. -/
def concatAll : List String → String
  | [] => ""
  | s :: ss => s ++ concatAll ss

theorem streamStep_textEvent (st : String × List String) (f : String) :
    streamStep st (mkTextEvent f) =
      (st.1 ++ clean_response f, st.2 ++ [st.1 ++ clean_response f]) := rfl

theorem foldl_streamStep_map_mkTextEvent (frags : List String) (acc : String)
    (disp : List String) :
    (frags.map mkTextEvent).foldl streamStep (acc, disp) =
      (acc ++ concatAll (frags.map clean_response),
        disp ++ (List.range frags.length).map
          (fun k => acc ++ concatAll ((frags.take (k + 1)).map clean_response))) := by
  induction frags generalizing acc disp with
  | nil => simp [concatAll]
  | cons f fs ih =>
    simp only [List.map_cons, List.foldl_cons, streamStep_textEvent]
    rw [ih]
    simp only [List.length_cons, List.range_succ_eq_map, List.map_cons, List.map_map,
      List.take_succ_cons, concatAll, Prod.mk.injEq, Function.comp,
      String.append_assoc, String.append_empty, List.cons_append, List.append_assoc,
      List.nil_append, List.take_zero, Function.comp_def, Nat.succ_eq_add_one]

theorem streamStep_of_eventText_none (st : String × List String) (e : StreamEvent)
    (h : eventText e = none) : streamStep st e = st := by
  simp [streamStep, h]

theorem foldl_streamStep_of_all_none (events : List StreamEvent)
    (h : ∀ e ∈ events, eventText e = none) (st : String × List String) :
    events.foldl streamStep st = st := by
  induction events generalizing st with
  | nil => rfl
  | cons e es ih =>
    rw [List.foldl_cons, streamStep_of_eventText_none st e (h e (List.mem_cons_self e es))]
    exact ih (fun x hx => h x (List.mem_cons_of_mem e hx)) st

theorem streamStep_of_eventText_some (st : String × List String) (e : StreamEvent)
    (v : String) (h : eventText e = some v) :
    streamStep st e = (st.1 ++ clean_response v, st.2 ++ [st.1 ++ clean_response v]) := by
  simp [streamStep, h]

theorem foldl_streamStep_fst (events : List StreamEvent) (acc : String)
    (disp : List String) :
    (events.foldl streamStep (acc, disp)).1 =
      acc ++ concatAll ((events.filterMap eventText).map clean_response) := by
  induction events generalizing acc disp with
  | nil => simp [concatAll]
  | cons e es ih =>
    cases h : eventText e with
    | none =>
      rw [List.foldl_cons, streamStep_of_eventText_none (acc, disp) e h,
        List.filterMap_cons_none h]
      exact ih acc disp
    | some v =>
      rw [List.foldl_cons, List.filterMap_cons_some h,
        streamStep_of_eventText_some (acc, disp) e v h, ih]
      simp [concatAll, String.append_assoc]

theorem scrubAux_of_not_hasMarker :
    ∀ (fuel : Nat) (l : List Char), hasMarker l = false → scrubAux fuel l = l := by
  intro fuel
  induction fuel with
  | zero => intro l _; rfl
  | succ n ih =>
    intro l h
    cases l with
    | nil => rfl
    | cons c cs =>
      have h2 : (matchMarker (c :: cs)).isSome = false ∧ hasMarker cs = false := by
        simpa [hasMarker] using h
      have h3 : matchMarker (c :: cs) = none := Option.not_isSome_iff_eq_none.mp (by simp [h2.1])
      simp [scrubAux, h3, ih cs h2.2]

theorem clean_response_of_not_hasMarkerStr (s : String) (h : hasMarkerStr s = false) :
    clean_response s = s := by
  unfold clean_response scrub
  rw [scrubAux_of_not_hasMarker s.data.length s.data h]

theorem creationCount_of_some (s : Session) (t : Nat) (h : s.thread_id = some t) :
    ∀ fs : List Nat, creationCount s fs = 0 := by
  intro fs
  induction fs with
  | nil => rfl
  | cons fresh rest ih =>
    simp [creationCount, ensure_thread, h, ih]

theorem creationCount_le_one (s : Session) (fs : List Nat) : creationCount s fs ≤ 1 := by
  cases h : s.thread_id with
  | some t => rw [creationCount_of_some s t h fs]; exact Nat.zero_le 1
  | none =>
    cases fs with
    | nil => exact Nat.zero_le 1
    | cons fresh rest =>
      have : creationCount s (fresh :: rest) =
          1 + creationCount { s with thread_id := some fresh } rest := by
        simp [creationCount, ensure_thread, h]
      rw [this, creationCount_of_some { s with thread_id := some fresh } fresh rfl rest]

theorem handleUserQuery_chat_history (s : Session) (fresh : Nat) (q : String)
    (events : List StreamEvent) (hq : q ≠ "") :
    (handleUserQuery s fresh q events).chat_history =
      s.chat_history ++
        [{ role := "user", content := q },
         { role := "assistant",
           content := concatAll ((events.filterMap eventText).map clean_response) }] := by
  have hrun : (runStream events).1 =
      concatAll ((events.filterMap eventText).map clean_response) := by
    rw [runStream, foldl_streamStep_fst]
    simp
  have hhist : ((ensure_thread s fresh).1).chat_history = s.chat_history := by
    cases h : s.thread_id <;> simp [ensure_thread, h]
  simp [handleUserQuery, hq, finalizeTurn, hrun, hhist, List.append_assoc]

/-- Claim C1: consuming fragments in order accumulates the concatenation of
the per-fragment scrubbed fragments in arrival order, and the finalized
assistant turn carries exactly that string; on the spec example the result is
"The balance is 100 dollars.". -/
theorem stream_concat_correct (frags : List String) :
    (runStream (frags.map mkTextEvent)).1 = concatAll (frags.map clean_response) ∧
    finalizeTurn (runStream (frags.map mkTextEvent)).1 =
      { role := "assistant", content := concatAll (frags.map clean_response) } ∧
    (runStream (["The balance is ", "100【12:3†source】 dollars."].map mkTextEvent)).1 =
      "The balance is 100 dollars." := by
  have h1 : (runStream (frags.map mkTextEvent)).1 = concatAll (frags.map clean_response) := by
    rw [runStream, foldl_streamStep_map_mkTextEvent]
    simp
  exact ⟨h1, by rw [h1]; rfl, by decide⟩

/-- Claim C2, counterexample: scrubbing is not idempotent in general, because
removing a marker can splice the surrounding text into a fresh marker. -/
theorem clean_response_not_idempotent :
    ¬ (clean_response (clean_response "【1:2†sou【3:4†source】rce】") =
        clean_response "【1:2†sou【3:4†source】rce】") := by decide

/-- Claim C2, amended: scrubbing is idempotent on every string whose scrubbed
form is marker-free; re-applying the pattern to such an already-scrubbed
string returns it unchanged. -/
theorem clean_response_idempotent_on_marker_free (t : String)
    (h : hasMarkerStr (clean_response t) = false) :
    clean_response (clean_response t) = clean_response t :=
  clean_response_of_not_hasMarkerStr (clean_response t) h

/-- Witness for the amended claim C2 at a concrete input. -/
theorem clean_response_idempotent_on_marker_free_witness :
    hasMarkerStr (clean_response "a【1:2†source】b") = false ∧
    clean_response (clean_response "a【1:2†source】b") = clean_response "a【1:2†source】b" :=
  ⟨by decide, clean_response_idempotent_on_marker_free "a【1:2†source】b" (by decide)⟩

/-- Claim C3: a citation marker split across a fragment boundary is not
removed; the accumulated content is the raw concatenation and still contains
the marker. -/
theorem split_marker_survives :
    (runStream (["...100【12:3†", "source】 dollars"].map mkTextEvent)).1 =
      "...100【12:3†source】 dollars" ∧
    hasMarkerStr ((runStream (["...100【12:3†", "source】 dollars"].map mkTextEvent)).1) =
      true :=
  ⟨by decide, by decide⟩

/-- Claim C4: one completed request/response cycle appends exactly one user
turn followed by one assistant turn, leaves the existing transcript intact,
and the assistant turn content is the scrubbed concatenation of the received
fragments in arrival order. -/
theorem transcript_one_turn_per_side (s : Session) (fresh : Nat) (q : String)
    (events : List StreamEvent) (hq : q ≠ "") :
    (handleUserQuery s fresh q events).chat_history =
      s.chat_history ++
        [{ role := "user", content := q },
         { role := "assistant",
           content := concatAll ((events.filterMap eventText).map clean_response) }] :=
  handleUserQuery_chat_history s fresh q events hq

/-- Witness for claim C4 at a concrete input. -/
theorem transcript_one_turn_per_side_witness :
    ("hi" : String) ≠ "" ∧
    (handleUserQuery ⟨none, []⟩ 0 "hi"
        [mkTextEvent "a【1:2†source】", .otherEvent]).chat_history =
      [] ++ [{ role := "user", content := "hi" },
        { role := "assistant",
          content := concatAll
            (([mkTextEvent "a【1:2†source】",
               StreamEvent.otherEvent].filterMap eventText).map clean_response) }] :=
  ⟨by decide, transcript_one_turn_per_side ⟨none, []⟩ 0 "hi" _ (by decide)⟩

/-- Claim C5: the lazy thread check creates and stores a thread only when the
session has none, returns the stored one otherwise, returns the identical
identifier on a second call without invoking creation, and at most one thread
is created over any sequence of calls. -/
theorem ensure_thread_once_per_session (s : Session) (n m : Nat) :
    (s.thread_id = none →
      ensure_thread s n = ({ s with thread_id := some n }, n, true)) ∧
    (∀ t, s.thread_id = some t → ensure_thread s n = (s, t, false)) ∧
    (ensure_thread (ensure_thread s n).1 m).2.1 = (ensure_thread s n).2.1 ∧
    (ensure_thread (ensure_thread s n).1 m).2.2 = false ∧
    (ensure_thread (ensure_thread s n).1 m).1 = (ensure_thread s n).1 ∧
    ∀ fs : List Nat, creationCount s fs ≤ 1 := by
  refine ⟨?_, ?_, ?_, ?_, ?_, fun fs => creationCount_le_one s fs⟩ <;>
    cases h : s.thread_id <;> simp [ensure_thread, h]

/-- Witness for claim C5 at concrete sessions. -/
theorem ensure_thread_once_per_session_witness :
    (Session.mk none []).thread_id = none ∧
    ensure_thread ⟨none, []⟩ 5 = (⟨some 5, []⟩, 5, true) ∧
    (Session.mk (some 3) []).thread_id = some 3 ∧
    ensure_thread ⟨some 3, []⟩ 5 = (⟨some 3, []⟩, 3, false) ∧
    (ensure_thread (ensure_thread ⟨none, []⟩ 5).1 7).2.2 = false ∧
    creationCount ⟨none, []⟩ [5, 7, 9] ≤ 1 :=
  ⟨rfl, (ensure_thread_once_per_session ⟨none, []⟩ 5 7).1 rfl, rfl,
   (ensure_thread_once_per_session ⟨some 3, []⟩ 5 7).2.1 3 rfl,
   (ensure_thread_once_per_session ⟨none, []⟩ 5 7).2.2.2.1,
   (ensure_thread_once_per_session ⟨none, []⟩ 5 7).2.2.2.2.2 [5, 7, 9]⟩

/-- Claim C6: the trace of display pushes has one entry per consumed fragment,
in order, each carrying the full accumulator value, so the k-th push equals
the scrubbed concatenation of the first k+1 fragments. -/
theorem display_trace_replacements (frags : List String) :
    (runStream (frags.map mkTextEvent)).2 =
      (List.range frags.length).map
        (fun k => concatAll ((frags.take (k + 1)).map clean_response)) := by
  rw [runStream, foldl_streamStep_map_mkTextEvent]
  simp

/-- Claim C7: a stream delivering no text fragments leaves the accumulator
empty, pushes nothing to the display, and appends an assistant turn with empty
content after the user turn. -/
theorem empty_stream_empty_turn (s : Session) (fresh : Nat) (q : String)
    (events : List StreamEvent) (hq : q ≠ "")
    (he : ∀ e ∈ events, eventText e = none) :
    runStream events = ("", []) ∧
    finalizeTurn (runStream events).1 = { role := "assistant", content := "" } ∧
    (handleUserQuery s fresh q events).chat_history =
      s.chat_history ++
        [{ role := "user", content := q },
         { role := "assistant", content := "" }] := by
  have h0 : runStream events = ("", []) := foldl_streamStep_of_all_none events he ("", [])
  have h1 : events.filterMap eventText = [] := List.filterMap_eq_nil_iff.mpr he
  refine ⟨h0, by rw [h0]; rfl, ?_⟩
  rw [handleUserQuery_chat_history s fresh q events hq, h1]
  rfl

/-- Witness for claim C7 at a concrete input. -/
theorem empty_stream_empty_turn_witness :
    ("x" : String) ≠ "" ∧
    (∀ e ∈ [StreamEvent.otherEvent, StreamEvent.messageDelta []], eventText e = none) ∧
    (handleUserQuery ⟨none, []⟩ 0 "x"
        [StreamEvent.otherEvent, StreamEvent.messageDelta []]).chat_history =
      [] ++ [{ role := "user", content := "x" },
             { role := "assistant", content := "" }] :=
  ⟨by decide, by decide,
   (empty_stream_empty_turn ⟨none, []⟩ 0 "x" _ (by decide) (by decide)).2.2⟩

/-- Claim C8: scrubbing has no failure mode and is a no-op on any input with
no substring matching the citation pattern. -/
theorem clean_response_noop_without_marker (t : String)
    (h : hasMarkerStr t = false) : clean_response t = t :=
  clean_response_of_not_hasMarkerStr t h

/-- Witness for claim C8 on the spec example. -/
theorem clean_response_noop_without_marker_witness :
    hasMarkerStr "no markers here" = false ∧
    clean_response "no markers here" = "no markers here" :=
  ⟨by decide, clean_response_noop_without_marker "no markers here" (by decide)⟩

/-- Claim C9: the voice handed to speech synthesis is always one of the six
enumerated identifiers, and every one of the six is selectable. -/
theorem voices_exactly_enumerated (i : Fin voice_options.length) :
    synthesisVoice i ∈ (["alloy", "echo", "fable", "onyx", "nova", "shimmer"] : List String) ∧
    ∀ v ∈ (["alloy", "echo", "fable", "onyx", "nova", "shimmer"] : List String),
      ∃ j : Fin voice_options.length, synthesisVoice j = v := by
  constructor
  · exact List.get_mem voice_options i.1 i.2
  · intro v hv
    fin_cases hv
    · exact ⟨⟨0, by decide⟩, rfl⟩
    · exact ⟨⟨1, by decide⟩, rfl⟩
    · exact ⟨⟨2, by decide⟩, rfl⟩
    · exact ⟨⟨3, by decide⟩, rfl⟩
    · exact ⟨⟨4, by decide⟩, rfl⟩
    · exact ⟨⟨5, by decide⟩, rfl⟩

/-- Witness for claim C9 at a concrete selection. -/
theorem voices_exactly_enumerated_witness :
    synthesisVoice ⟨1, by decide⟩ ∈
      (["alloy", "echo", "fable", "onyx", "nova", "shimmer"] : List String) ∧
    ∃ j : Fin voice_options.length, synthesisVoice j = "nova" :=
  ⟨(voices_exactly_enumerated ⟨1, by decide⟩).1,
   (voices_exactly_enumerated ⟨1, by decide⟩).2 "nova" (by decide)⟩

/-- Claim C10: a message delta whose first content block is a text delta
contributes exactly the scrubbed text of block 0 (later blocks are ignored)
and pushes one display update; every other event leaves the accumulator and
display untouched. -/
theorem stream_filter_first_text_block (acc : String) (disp : List String)
    (v : String) (rest rest2 : List ContentBlock) :
    streamStep (acc, disp) (.messageDelta (.textDelta v :: rest)) =
      (acc ++ clean_response v, disp ++ [acc ++ clean_response v]) ∧
    streamStep (acc, disp) (.messageDelta (.textDelta v :: rest)) =
      streamStep (acc, disp) (.messageDelta (.textDelta v :: rest2)) ∧
    streamStep (acc, disp) (.messageDelta []) = (acc, disp) ∧
    streamStep (acc, disp) (.messageDelta (.otherBlock :: rest)) = (acc, disp) ∧
    streamStep (acc, disp) .otherEvent = (acc, disp) :=
  ⟨rfl, rfl, rfl, rfl, rfl⟩

end BankingChatbot
